import Mathlib

/-!
Verification of the student-report utility (src/student.go).

The Go program is shallowly embedded:
* Go `float64` score values are modelled as exact rationals (`Rat`); none of
  the properties verified here hinges on binary floating-point rounding.
* Go strings are modelled as Lean `String`s; byte indexing into the ASCII
  identifiers handled by the program coincides with character indexing.
* Go maps are modelled as association lists with Go's read-default-zero and
  update-in-place semantics (`GoMap`); since Go map iteration order is
  unspecified, every place the program ranges over a map is modelled as a
  function of an explicit key enumeration.
* `fmt.Printf` diagnostics are modelled as values (`MismatchDiag`, `LogLine`)
  collected in program order, with the exact formatted text recoverable
  through the `message` functions.
-/

unseal Rat.add Rat.mul Rat.inv Rat.sub Rat.ofScientific

/-- Association-list model of a Go `map[string]V`: later `upsert`s overwrite
earlier bindings, and absent keys read as the zero value via `getD`. -/
abbrev GoMap (V : Type) : Type := List (String × V)

/-- Lookup of a key, `none` when absent (Go: comma-ok read). -/
def GoMap.find? (m : GoMap V) (k : String) : Option V :=
  (List.find? (fun p => p.1 == k) m).map (fun p => p.2)

/-- Read with a default, modelling Go's zero-value read `m[k]`. -/
def GoMap.getD (m : GoMap V) (k : String) (d : V) : V :=
  (GoMap.find? m k).getD d

/-- Write `m[k] = v`: the stored binding for `k` is replaced.  (The physical
order of bindings is irrelevant: Go maps are unordered, and every map
iteration in the program is modelled over an explicit key enumeration.) -/
def GoMap.upsert (m : GoMap V) (k : String) (v : V) : GoMap V :=
  (k, v) :: List.filter (fun p => !(p.1 == k)) m

/-- Key set of the map, in storage order. -/
def GoMap.keys (m : GoMap V) : List String :=
  m.map (fun p => p.1)

theorem GoMap.find?_filter_ne (m : GoMap V) (k k' : String) (h : k' ≠ k) :
    GoMap.find? (List.filter (fun p => !(p.1 == k)) m) k' = GoMap.find? m k' := by
  induction m with
  | nil => rfl
  | cons p rest ih =>
    by_cases hpk : p.1 = k
    · have h2 : (p.1 == k') = false := by
        rw [hpk, beq_eq_false_iff_ne]
        intro hc; exact h hc.symm
      have hf : ¬ ((!(p.1 == k)) = true) := by simp [hpk]
      simp only [GoMap.find?] at ih ⊢
      rw [@List.filter_cons_of_neg _ (fun q => !(q.1 == k)) p rest hf, List.find?_cons, h2, ih]
    · have h1 : (p.1 == k) = false := beq_eq_false_iff_ne.mpr hpk
      have hf : ((!(p.1 == k)) = true) := by simp [h1]
      simp only [GoMap.find?] at ih ⊢
      rw [@List.filter_cons_of_pos _ (fun q => !(q.1 == k)) p rest hf, List.find?_cons,
        List.find?_cons]
      cases hb : (p.1 == k') with
      | true => rfl
      | false => exact ih

@[simp] theorem GoMap.find?_upsert_self (m : GoMap V) (k : String) (v : V) :
    GoMap.find? (GoMap.upsert m k v) k = some v := by
  simp [GoMap.find?, GoMap.upsert, List.find?_cons]

theorem GoMap.find?_upsert_ne (m : GoMap V) (k k' : String) (v : V) (h : k' ≠ k) :
    GoMap.find? (GoMap.upsert m k v) k' = GoMap.find? m k' := by
  have hk : (k == k') = false := by
    simp only [beq_eq_false_iff_ne]
    intro hc; exact h hc.symm
  simp only [GoMap.upsert, GoMap.find?, List.find?_cons, hk]
  exact GoMap.find?_filter_ne m k k' h

theorem GoMap.getD_upsert_self (m : GoMap V) (k : String) (v d : V) :
    GoMap.getD (GoMap.upsert m k v) k d = v := by
  simp [GoMap.getD]

theorem GoMap.getD_upsert_ne (m : GoMap V) (k k' : String) (v d : V) (h : k' ≠ k) :
    GoMap.getD (GoMap.upsert m k v) k' d = GoMap.getD m k' d := by
  simp [GoMap.getD, GoMap.find?_upsert_ne m k k' v h]

/-- Lookup after rewriting every stored value with a key-dependent function
(used for the `for key, val := range m` loops that build a derived map). -/
theorem GoMap.find?_mapVal (m : GoMap A) (f : String → A → B) (k : String) :
    GoMap.find? (m.map (fun p => (p.1, f p.1 p.2))) k = (GoMap.find? m k).map (f k) := by
  induction m with
  | nil => rfl
  | cons p rest ih =>
    by_cases hpk : p.1 = k
    · have h1 : (p.1 == k) = true := beq_iff_eq.mpr hpk
      simp only [GoMap.find?, List.map_cons, List.find?_cons, h1, Option.map_some] at *
      simp [hpk]
    · have h1 : (p.1 == k) = false := beq_eq_false_iff_ne.mpr hpk
      simp only [GoMap.find?, List.map_cons, List.find?_cons, h1] at *
      exact ih

/-- One parsed student row (src/student.go, `type Student struct`).  Go
`float64` fields are modelled as rationals. -/
structure Student where
  SlNo : Int
  ClassNo : Int
  Emplid : String
  CampusID : String
  Quiz : Rat
  MidSem : Rat
  LabTest : Rat
  WeeklyLabs : Rat
  PreCompre : Rat
  Compre : Rat
  Total : Rat
  ComputedSum : Rat
  deriving DecidableEq

/-- Numeric value of a list of decimal digit characters. -/
def digitsVal (ds : List Char) : Nat :=
  ds.foldl (fun acc c => acc * 10 + (c.toNat - 48)) 0

/-- Ten to a natural power, as a rational (kernel-reducible helper). -/
def tenPow : Nat → Rat
  | 0 => 1
  | n + 1 => 10 * tenPow n

/-- Model of Go `strconv.Atoi` (= `ParseInt(s, 10, 64)` on a 64-bit platform):
optional sign, one or more decimal digits, value within the `int64` range;
anything else is an error (`none`).  Digit underscores are not accepted in
explicit base 10. -/
def atoi (s : String) : Option Int :=
  let cs := s.toList
  let sign : Int := match cs with
    | '-' :: _ => -1
    | _ => 1
  let ds : List Char := match cs with
    | '+' :: r => r
    | '-' :: r => r
    | r => r
  if ds = [] then none
  else if ds.all Char.isDigit then
    let v : Int := sign * (digitsVal ds : Int)
    if -(2 ^ 63) ≤ v ∧ v < 2 ^ 63 then some v else none
  else none

/-- Model of the decimal fragment of Go `strconv.ParseFloat(s, 64)`:
optional sign, decimal mantissa with at least one digit and an optional
fraction part, optional signed decimal exponent; the value is kept exact as a
rational.  The special forms Go also accepts (`Inf`/`NaN`, hexadecimal
mantissas, digit underscores) and the `ErrRange` overflow behaviour are not
modelled: no row the claims touch uses them. -/
def parseFloat64 (s : String) : Option Rat :=
  let cs := s.toList
  let sgn : Rat := match cs with
    | '-' :: _ => -1
    | _ => 1
  let cs1 : List Char := match cs with
    | '+' :: r => r
    | '-' :: r => r
    | r => r
  let ip := cs1.takeWhile Char.isDigit
  let r1 := cs1.dropWhile Char.isDigit
  let fp : List Char := match r1 with
    | '.' :: r => r.takeWhile Char.isDigit
    | _ => []
  let r2 : List Char := match r1 with
    | '.' :: r => r.dropWhile Char.isDigit
    | r => r
  if ip = [] ∧ fp = [] then none
  else
    let mant : Rat := (digitsVal ip : Rat) + (digitsVal fp : Rat) / tenPow fp.length
    match r2 with
    | [] => some (sgn * mant)
    | e :: r3 =>
      if e = 'e' ∨ e = 'E' then
        let pos : Bool := match r3 with
          | '-' :: _ => false
          | _ => true
        let eds : List Char := match r3 with
          | '+' :: r => r
          | '-' :: r => r
          | r => r
        if eds ≠ [] ∧ eds.all Char.isDigit then
          if pos then some (sgn * mant * tenPow (digitsVal eds))
          else some (sgn * mant / tenPow (digitsVal eds))
        else none
      else none

/-- Model of the `parseFloat` closure in `parseRow` (src lines 69-74): the
empty cell parses to `0` with no error; otherwise `strconv.ParseFloat` is
consulted.  The pair is (value, err == nil); on a syntax error Go's
`ParseFloat` returns value `0` together with the error. -/
def parseFloatGo (s : String) : Rat × Bool :=
  if s = "" then (0, true)
  else
    match parseFloat64 s with
    | some v => (v, true)
    | none => (0, false)

/-- Model of `almostEqual` (src lines 62-65): absolute difference strictly
below the tolerance `0.01`. -/
def almostEqual (a b : Rat) : Bool :=
  decide (|a - b| < 1 / 100)

/-- The `MalformedRow` errors `parseRow` can return, each naming the
offending row; `message` below recovers the exact Go error text. -/
inductive RowError where
  | invalidSlNo (rowNum : Nat)
  | invalidClassNo (rowNum : Nat)
  | invalidNumericData (rowNum : Nat)
  deriving DecidableEq

/-- The Go error strings built by `fmt.Errorf` in `parseRow`. -/
def RowError.message : RowError → String
  | RowError.invalidSlNo n => "invalid Sl No at row " ++ toString n
  | RowError.invalidClassNo n => "invalid Class No at row " ++ toString n
  | RowError.invalidNumericData n => "invalid numeric data at row " ++ toString n

/-- One mismatch diagnostic printed by `parseRow` (src lines 100-110): which
field ("PreCompre" or "total"), the row, the expected (recomputed) value and
the found (declared) value. -/
structure MismatchDiag where
  field : String
  row : Nat
  expected : Rat
  found : Rat
  deriving DecidableEq

/-- Model of `parseRow` (src lines 68-125).  It returns either a
`MalformedRow` error or the parsed record together with the mismatch
diagnostics it printed, in print order.  Faithful to the source, the `err`
returned by each of the seven `parseFloat` calls (src lines 85-91) overwrites
the previous one, and only the last — the one for the `total` cell — is
consulted by the check at src line 93. -/
def parseRow (rowNum : Nat) (row : List String) : Except RowError (Student × List MismatchDiag) :=
  match atoi (row.getD 0 "") with
  | none => Except.error (RowError.invalidSlNo rowNum)
  | some slNo =>
    match atoi (row.getD 1 "") with
    | none => Except.error (RowError.invalidClassNo rowNum)
    | some classNo =>
      let r4 := parseFloatGo (row.getD 4 "")
      let r5 := parseFloatGo (row.getD 5 "")
      let r6 := parseFloatGo (row.getD 6 "")
      let r7 := parseFloatGo (row.getD 7 "")
      let r8 := parseFloatGo (row.getD 8 "")
      let r9 := parseFloatGo (row.getD 9 "")
      let r10 := parseFloatGo (row.getD 10 "")
      if r10.2 = false then Except.error (RowError.invalidNumericData rowNum)
      else
        let quiz := r4.1
        let midSem := r5.1
        let labTest := r6.1
        let weeklyLabs := r7.1
        let preCompre := r8.1
        let compre := r9.1
        let total := r10.1
        let computedPreCompre := quiz + midSem + labTest + weeklyLabs
        let d1 : List MismatchDiag :=
          if almostEqual computedPreCompre preCompre then []
          else [⟨"PreCompre", rowNum, computedPreCompre, preCompre⟩]
        let computedSum := quiz + midSem + labTest + weeklyLabs + compre
        let d2 : List MismatchDiag :=
          if almostEqual computedSum total then []
          else [⟨"total", rowNum, computedSum, total⟩]
        Except.ok
          ({ SlNo := slNo, ClassNo := classNo, Emplid := row.getD 2 "",
             CampusID := row.getD 3 "", Quiz := quiz, MidSem := midSem,
             LabTest := labTest, WeeklyLabs := weeklyLabs, PreCompre := preCompre,
             Compre := compre, Total := total, ComputedSum := computedSum },
           d1 ++ d2)

/-- One line of console output produced while parsing: either the
`"Error parsing row %d: %v"` line `parseExcel` prints for a rejected row, or
a mismatch diagnostic printed inside `parseRow`. -/
inductive LogLine where
  | parseError (rowNum : Nat) (e : RowError)
  | mismatch (d : MismatchDiag)
  deriving DecidableEq

/-- Model of the row loop of `parseExcel` (src lines 45-57) over the data
rows (the rows after the header), with `i` the 0-based loop index: a row
with fewer than 11 cells is skipped with no output; a row `parseRow`
rejects contributes only an error line; an accepted row contributes its
record and its mismatch diagnostics. -/
def parseRowsFrom (i : Nat) : List (List String) → List Student × List LogLine
  | [] => ([], [])
  | row :: rest =>
    if row.length < 11 then parseRowsFrom (i + 1) rest
    else
      match parseRow (i + 2) row with
      | Except.error e =>
        let r := parseRowsFrom (i + 1) rest
        (r.1, LogLine.parseError (i + 2) e :: r.2)
      | Except.ok sd =>
        let r := parseRowsFrom (i + 1) rest
        (sd.1 :: r.1, sd.2.map LogLine.mismatch ++ r.2)

/-- Model of the pure part of `parseExcel` (src lines 30-60): given the rows
`GetRows` returned, skip the header row and run the row loop.  (Opening the
workbook and the `FileError` path are I/O and are not modelled.) -/
def parseExcelRows (rows : List (List String)) : List Student × List LogLine :=
  parseRowsFrom 0 (rows.drop 1)

instance {ε α : Type} [DecidableEq ε] [DecidableEq α] : DecidableEq (Except ε α)
  | Except.error a, Except.error b =>
    if h : a = b then isTrue (by rw [h]) else isFalse (fun hc => by cases hc; exact h rfl)
  | Except.error _, Except.ok _ => isFalse (fun hc => by cases hc)
  | Except.ok _, Except.error _ => isFalse (fun hc => by cases hc)
  | Except.ok a, Except.ok b =>
    if h : a = b then isTrue (by rw [h]) else isFalse (fun hc => by cases hc; exact h rfl)

example : parseFloatGo "" = (0, true) := by decide
example : parseFloatGo "8" = (8, true) := by decide
example : parseFloatGo "abc" = (0, false) := by decide
example : parseFloatGo "-2.50" = (-(5/2), true) := by decide
example : parseFloatGo "1e2" = (100, true) := by decide
example : parseFloatGo "1.5e-1" = (15/100, true) := by decide
example : parseFloatGo "1."  = (1, true) := by decide
example : parseFloatGo "."  = (0, false) := by decide
example : parseFloatGo ".5"  = (1/2, true) := by decide
example : parseFloatGo "4 2"  = (0, false) := by decide
example : atoi "12" = some 12 := by decide
example : atoi "-3" = some (-3) := by decide
example : atoi "" = none := by decide
example : atoi "1a" = none := by decide
example : almostEqual 91 91 = true := by decide
example : almostEqual 91 95 = false := by decide
example :
    parseRow 2 ["1", "1", "E001", "2024A1001", "8", "25", "9", "9", "51", "40", "91"] =
      Except.ok
        ({ SlNo := 1, ClassNo := 1, Emplid := "E001", CampusID := "2024A1001", Quiz := 8,
           MidSem := 25, LabTest := 9, WeeklyLabs := 9, PreCompre := 51, Compre := 40,
           Total := 91, ComputedSum := 91 }, []) := by decide

/-- Model of the inner `sum[...] += s....` statements of `computeAverages`
(src lines 132-140): one loop iteration over one student, updating the seven
component keys in source order (a missing key reads as `0`, Go's zero value). -/
def addStudent (sum : GoMap Rat) (s : Student) : GoMap Rat :=
  let m1 := GoMap.upsert sum "Quiz" (GoMap.getD sum "Quiz" 0 + s.Quiz)
  let m2 := GoMap.upsert m1 "MidSem" (GoMap.getD m1 "MidSem" 0 + s.MidSem)
  let m3 := GoMap.upsert m2 "LabTest" (GoMap.getD m2 "LabTest" 0 + s.LabTest)
  let m4 := GoMap.upsert m3 "WeeklyLabs" (GoMap.getD m3 "WeeklyLabs" 0 + s.WeeklyLabs)
  let m5 := GoMap.upsert m4 "PreCompre" (GoMap.getD m4 "PreCompre" 0 + s.PreCompre)
  let m6 := GoMap.upsert m5 "Compre" (GoMap.getD m5 "Compre" 0 + s.Compre)
  GoMap.upsert m6 "Total" (GoMap.getD m6 "Total" 0 + s.Total)

/-- The `for _, s := range students` loop of `computeAverages`. -/
def sumLoop : List Student → GoMap Rat → GoMap Rat
  | [], sum => sum
  | s :: rest, sum => sumLoop rest (addStudent sum s)

/-- Model of `computeAverages` (src lines 128-148): sum the seven score
fields over all records, then divide every stored sum by
`count = float64(len(students))`. -/
def computeAverages (students : List Student) : GoMap Rat :=
  let count : Rat := (students.length : Rat)
  let sum := sumLoop students []
  sum.map (fun p => (p.1, p.2 / count))

/-- Model of Go `strings.Contains`: substring (infix) containment. -/
def goContains (s sub : String) : Bool :=
  decide (sub.toList <:+: s.toList)

/-- The branch code of a record: characters 4-5 of `campusId`
(src line 160). -/
def branchOf (s : Student) : String :=
  String.mk ((s.CampusID.toList.drop 4).take 2)

/-- The filter of `computeBranchAverages` (src lines 156-162): `campusId` at
least 6 characters, year prefix (characters 0-3) equal to "2024", and branch
code containing "A". -/
def qualifies (s : Student) : Bool :=
  ¬ (s.CampusID.toList.length < 6) ∧
    String.mk (s.CampusID.toList.take 4) = "2024" ∧ goContains (branchOf s) "A"

/-- The `for _, s := range students` loop of `computeBranchAverages`
(src lines 155-166), carrying the `branchTotal` and `branchCount` maps. -/
def branchLoop : List Student → GoMap Rat × GoMap Nat → GoMap Rat × GoMap Nat
  | [], acc => acc
  | s :: rest, acc =>
    if qualifies s then
      branchLoop rest
        (GoMap.upsert acc.1 (branchOf s) (GoMap.getD acc.1 (branchOf s) 0 + s.Total),
         GoMap.upsert acc.2 (branchOf s) (GoMap.getD acc.2 (branchOf s) 0 + 1))
    else branchLoop rest acc

/-- Model of `computeBranchAverages` (src lines 151-175): accumulate per-branch
totals and counts over the qualifying records, then divide each total by its
count. -/
def computeBranchAverages (students : List Student) : GoMap Rat :=
  let acc := branchLoop students ([], [])
  acc.1.map (fun p => (p.1, p.2 / ((GoMap.getD acc.2 p.1 0 : Nat) : Rat)))

/-- The fixed category list of `rankStudents` (src line 180). -/
def categories : List String :=
  ["Quiz", "MidSem", "LabTest", "WeeklyLabs", "PreCompre", "Compre", "Total"]

/-- Model of `getScoreByCategory` (src lines 197-215): the switch over the
seven category names, returning `0` on an unrecognized name. -/
def getScoreByCategory (student : Student) (category : String) : Rat :=
  if category = "Quiz" then student.Quiz
  else if category = "MidSem" then student.MidSem
  else if category = "LabTest" then student.LabTest
  else if category = "WeeklyLabs" then student.WeeklyLabs
  else if category = "PreCompre" then student.PreCompre
  else if category = "Compre" then student.Compre
  else if category = "Total" then student.Total
  else 0

/-- Model of the source's `min` utility (src lines 218-223), on `Nat` since it
is only applied to `3` and a list length. -/
def minGo (a b : Nat) : Nat :=
  if a < b then a else b

/-- The ordering `sort.Slice` establishes in `rankStudents` (src lines
187-189): the comparator is `score i > score j`, so the sorted slice is
nonincreasing in the category score.  `rankGE c a b` says `a` may come before
`b`. -/
def rankGE (category : String) (a b : Student) : Prop :=
  getScoreByCategory b category ≤ getScoreByCategory a category

instance : DecidableRel (rankGE c) := fun a b =>
  inferInstanceAs (Decidable (getScoreByCategory b c ≤ getScoreByCategory a c))

instance : IsTotal Student (rankGE c) := ⟨fun _ _ => le_total _ _⟩

instance : IsTrans Student (rankGE c) :=
  ⟨fun _ _ _ hab hbc => le_trans hbc hab⟩

/-- Model of the `sort.Slice` call of `rankStudents`: a comparison sort of the
slice into nonincreasing category score.  `sort.Slice` is an unstable sort
whose exact tie order is unspecified; it is modelled by a concrete comparison
sort, and no claim below depends on the order of equal scores. -/
def goSortBy (category : String) (l : List Student) : List Student :=
  l.insertionSort (rankGE category)

/-- Model of `append([]Student{}, students...)` (src line 185): a fresh slice
with the same elements; the copy is what keeps `sort.Slice` from writing into
the caller's backing array. -/
def goCopy (l : List Student) : List Student :=
  [] ++ l

/-- The ranking `rankStudents` computes for one category: sort a copy of the
records by that category's score, descending, and keep the first
`min(3, len)` entries (src lines 184-190). -/
def rankOne (students : List Student) (category : String) : List Student :=
  let sortedStudents := goSortBy category (goCopy students)
  sortedStudents.take (minGo 3 sortedStudents.length)

/-- The `for _, category := range categories` loop of `rankStudents`
(src lines 183-191).  The second component carries the contents of the
caller's `students` slice across iterations: the loop never writes through
`students` (its only writes go through the freshly copied slice), so the
carried value is passed on unchanged; the loop's final value is what the
caller observes after `rankStudents` returns. -/
def rankLoop (students : List Student) :
    List String → GoMap (List Student) → GoMap (List Student) × List Student
  | [], rankings => (rankings, students)
  | category :: rest, rankings =>
    rankLoop students rest (GoMap.upsert rankings category (rankOne students category))

/-- Model of `rankStudents` (src lines 179-194) together with the final
contents of the caller's slice. -/
def rankStudentsSt (students : List Student) : GoMap (List Student) × List Student :=
  rankLoop students categories []

/-- The rankings map `rankStudents` returns. -/
def rankStudents (students : List Student) : GoMap (List Student) :=
  (rankStudentsSt students).1

/-- Floor of a rational, by flooring division of numerator by denominator
(kernel-reducible helper). -/
def ratFloor (q : Rat) : Int :=
  Int.fdiv q.num (q.den : Int)

/-- The integer nearest `100 * q`, ties to even: the rounding `%.2f` applies.
(The model rounds the exact rational value; the binary representation error of
Go's `float64` is outside the model.) -/
def round2 (q : Rat) : Int :=
  let x := q * 100
  let n := ratFloor x
  let frac := x - (n : Rat)
  if frac < 1 / 2 then n
  else if 1 / 2 < frac then n + 1
  else if n % 2 = 0 then n else n + 1

/-- Rendering of a score with `fmt`'s `%.2f` verb: two digits after the
decimal point. -/
def format2 (q : Rat) : String :=
  let c := round2 q
  let sgn := if c < 0 then "-" else ""
  let a := c.natAbs
  let cents := a % 100
  sgn ++ toString (a / 100) ++ "." ++
    (if cents < 10 then "0" ++ toString cents else toString cents)

/-- The console text of one `LogLine`, exactly as the Go `fmt.Printf` calls
format it (src lines 52, 103, 109). -/
def LogLine.message : LogLine → String
  | LogLine.parseError n e => "Error parsing row " ++ toString n ++ ": " ++ e.message ++ "\n"
  | LogLine.mismatch d =>
    "Error: Mismatch in " ++ d.field ++ " at row " ++ toString d.row ++ ". Expected " ++
      format2 d.expected ++ ", Found " ++ format2 d.found ++ "\n"

/-- One line of the averages report: `fmt.Printf("%s: %.2f\n", key, val)`
(src line 241), with `val` the stored value for `key`. -/
def avgLine (m : GoMap Rat) (key : String) : String :=
  key ++ ": " ++ format2 (GoMap.getD m key 0) ++ "\n"

/-- The averages section of the report, printed by ranging over the map in
the key order `o` (Go map iteration order is unspecified, so it is a
parameter). -/
def averagesSection (students : List Student) (o : List String) : List String :=
  o.map (avgLine (computeAverages students))

/-- One line of the branch report: `fmt.Printf("Branch %s: %.2f\n", ...)`
(src line 247). -/
def branchLine (m : GoMap Rat) (branch : String) : String :=
  "Branch " ++ branch ++ ": " ++ format2 (GoMap.getD m branch 0) ++ "\n"

/-- The branch-averages section, ranged in key order `o`. -/
def branchSection (students : List Student) (o : List String) : List String :=
  o.map (branchLine (computeBranchAverages students))

/-- One ranking entry: `fmt.Printf("Rank:%d. %s - %.2f\n", rank+1, ...)`
(src line 255), with `rank` the 0-based position. -/
def rankEntry (category : String) (p : Nat × Student) : String :=
  "Rank:" ++ toString (p.1 + 1) ++ ". " ++ p.2.Emplid ++ " - " ++
    format2 (getScoreByCategory p.2 category) ++ "\n"

/-- One category block of the rankings report (src lines 252-257). -/
def rankBlock (students : List Student) (category : String) : String :=
  "\n" ++ category ++ ":\n" ++
    String.join
      ((List.enum (GoMap.getD (rankStudents students) category [])).map (rankEntry category))

/-- The rankings section, one block per category, in category order `o`. -/
def rankSection (students : List Student) (o : List String) : List String :=
  o.map (rankBlock students)

/-- The full report text `main` writes to standard output (src lines 238-257),
as a function of the parsed records and of the three map iteration orders the
Go runtime happens to pick. -/
def report (students : List Student) (o1 o2 o3 : List String) : String :=
  String.join
    (["\n--- Average Scores ---\n"] ++ averagesSection students o1 ++
      ["\n--- Branch-wise Averages (2024 Batch) ---\n"] ++ branchSection students o2 ++
      ["\n--- Top 3 Students Per Component ---\n"] ++ rankSection students o3)

/-- An enumeration `o` is a possible Go iteration order for map `m` exactly
when it enumerates each stored key once. -/
abbrev validOrder (m : GoMap V) (o : List String) : Prop :=
  o.Perm (GoMap.keys m)

example : format2 91 = "91.00" := by decide
example : format2 (91 / 3) = "30.33" := by decide
example : format2 (5 / 2) = "2.50" := by decide
example : format2 (1 / 8) = "0.12" := by decide
example : format2 (3 / 8) = "0.38" := by decide

/-- The worked example row of the specification. -/
def exRow : List String :=
  ["1", "1", "E001", "2024A1001", "8", "25", "9", "9", "51", "40", "91"]

/-- The specification's example row with the declared total replaced by
"95". -/
def exRow95 : List String :=
  ["1", "1", "E001", "2024A1001", "8", "25", "9", "9", "51", "40", "95"]

/-- The example row with a non-numeric quiz cell (score column 4). -/
def badQuizRow : List String :=
  ["1", "1", "E001", "2024A1001", "x", "25", "9", "9", "51", "40", "91"]

/-- The example row with a non-numeric total cell (score column 10). -/
def badTotalRow : List String :=
  ["1", "1", "E001", "2024A1001", "8", "25", "9", "9", "51", "40", "x"]

/-- The example row with a non-numeric serial cell (column 0). -/
def badSlNoRow : List String :=
  ["x", "1", "E001", "2024A1001", "8", "25", "9", "9", "51", "40", "91"]

/-- A header row as in the expected workbook layout. -/
def headerRow : List String :=
  ["Sl No", "Class No", "Emplid", "Campus ID", "Quiz", "Mid-Sem", "Lab Test",
   "Weekly Labs", "Pre-Compre", "Compre", "Total"]

/-- A data row with fewer than 11 cells. -/
def shortRow : List String :=
  ["1", "1", "E001"]

/-- The record the example row parses to. -/
def exStud : Student :=
  { SlNo := 1, ClassNo := 1, Emplid := "E001", CampusID := "2024A1001", Quiz := 8, MidSem := 25,
    LabTest := 9, WeeklyLabs := 9, PreCompre := 51, Compre := 40, Total := 91, ComputedSum := 91 }

/-- Claim C1 (code_bug): the specification requires that a non-empty,
non-numeric string in any of the seven score columns (positions 4-10) makes
`parseRow` return a `MalformedRow` error and drop the row.  The code does not
do this: each score parse overwrites the shared `err` variable and only the
last parse (the `total` cell, column 10) is checked, so a non-numeric quiz
cell is silently read as `0` and the row still produces a record — here the
row with quiz cell "x" parses to a record with `Quiz = 0` (plus two spurious
mismatch diagnostics), the workbook keeps its record, and only the variant
with a bad `total` cell is rejected as the spec describes. -/
theorem C1_score_error_shadowed :
    parseRow 2 badQuizRow =
      Except.ok
        ({ SlNo := 1, ClassNo := 1, Emplid := "E001", CampusID := "2024A1001", Quiz := 0,
           MidSem := 25, LabTest := 9, WeeklyLabs := 9, PreCompre := 51, Compre := 40,
           Total := 91, ComputedSum := 83 },
         [⟨"PreCompre", 2, 43, 51⟩, ⟨"total", 2, 83, 91⟩]) ∧
    (parseExcelRows [headerRow, badQuizRow]).1.length = 1 ∧
    parseRow 2 badTotalRow = Except.error (RowError.invalidNumericData 2) := by
  refine ⟨by decide, by decide, by decide⟩

/-- Claim C3 (confirmed): whenever the serial, class-number and all seven
score cells of a row parse, `parseRow` accepts the row and returns the record
built from exactly the declared cell values; a disagreement between a declared
subtotal and the recomputed sum only adds a `MismatchDiag` naming the row, the
expected (computed) value and the found (declared) value, and neither alters
the returned record nor causes rejection. -/
theorem C3_mismatch_is_diagnostic_only (n : Nat) (row : List String) (a b : Int)
    (v4 v5 v6 v7 v8 v9 v10 : Rat)
    (h0 : atoi (row.getD 0 "") = some a) (h1 : atoi (row.getD 1 "") = some b)
    (h4 : parseFloatGo (row.getD 4 "") = (v4, true))
    (h5 : parseFloatGo (row.getD 5 "") = (v5, true))
    (h6 : parseFloatGo (row.getD 6 "") = (v6, true))
    (h7 : parseFloatGo (row.getD 7 "") = (v7, true))
    (h8 : parseFloatGo (row.getD 8 "") = (v8, true))
    (h9 : parseFloatGo (row.getD 9 "") = (v9, true))
    (h10 : parseFloatGo (row.getD 10 "") = (v10, true)) :
    parseRow n row =
      Except.ok
        ({ SlNo := a, ClassNo := b, Emplid := row.getD 2 "", CampusID := row.getD 3 "",
           Quiz := v4, MidSem := v5, LabTest := v6, WeeklyLabs := v7, PreCompre := v8,
           Compre := v9, Total := v10, ComputedSum := v4 + v5 + v6 + v7 + v9 },
         (if almostEqual (v4 + v5 + v6 + v7) v8 then []
          else [⟨"PreCompre", n, v4 + v5 + v6 + v7, v8⟩]) ++
         (if almostEqual (v4 + v5 + v6 + v7 + v9) v10 then []
          else [⟨"total", n, v4 + v5 + v6 + v7 + v9, v10⟩])) := by
  unfold parseRow
  rw [h0, h1]
  simp only [h4, h5, h6, h7, h8, h9, h10]
  rfl

/-- Witness for C3 at the specification's example: the row with declared
total "95" is returned with `Total = 95` unchanged, together with a single
diagnostic whose printed text cites expected 91.00 and found 95.00. -/
theorem C3_mismatch_is_diagnostic_only_witness :
    atoi (exRow95.getD 0 "") = some 1 ∧
    parseRow 2 exRow95 =
      Except.ok
        ({ SlNo := 1, ClassNo := 1, Emplid := "E001", CampusID := "2024A1001", Quiz := 8,
           MidSem := 25, LabTest := 9, WeeklyLabs := 9, PreCompre := 51, Compre := 40,
           Total := 95, ComputedSum := 91 },
         [⟨"total", 2, 91, 95⟩]) ∧
    (LogLine.mismatch ⟨"total", 2, 91, 95⟩).message =
      "Error: Mismatch in total at row 2. Expected 91.00, Found 95.00\n" := by
  refine ⟨by decide, ?_, by decide⟩
  have h := C3_mismatch_is_diagnostic_only 2 exRow95 1 1 8 25 9 9 51 40 95 (by decide)
    (by decide) (by decide) (by decide) (by decide) (by decide) (by decide) (by decide)
    (by decide)
  rw [h]
  decide

/-- Unfolding equation for the row loop at a cons cell. -/
theorem parseRowsFrom_cons (i : Nat) (row : List String) (rest : List (List String)) :
    parseRowsFrom i (row :: rest) =
      if row.length < 11 then parseRowsFrom (i + 1) rest
      else
        match parseRow (i + 2) row with
        | Except.error e =>
          ((parseRowsFrom (i + 1) rest).1,
            LogLine.parseError (i + 2) e :: (parseRowsFrom (i + 1) rest).2)
        | Except.ok sd =>
          (sd.1 :: (parseRowsFrom (i + 1) rest).1,
            sd.2.map LogLine.mismatch ++ (parseRowsFrom (i + 1) rest).2) := rfl

/-- Claim C8 (confirmed): a serial cell that does not parse as an integer
makes `parseRow` fail with the `MalformedRow` error naming the row and the
field "Sl No"; a class-number cell that does not parse (after a good serial)
fails naming "Class No"; and any row `parseRow` rejects is skipped by the
`parseExcel` loop — a diagnostic naming the row and cause is emitted, no
record is appended, and the remaining rows are processed unchanged. -/
theorem C8_integer_fields (n i : Nat) (row : List String) (rest : List (List String)) :
    (atoi (row.getD 0 "") = none →
      parseRow n row = Except.error (RowError.invalidSlNo n)) ∧
    (∀ a, atoi (row.getD 0 "") = some a → atoi (row.getD 1 "") = none →
      parseRow n row = Except.error (RowError.invalidClassNo n)) ∧
    (RowError.invalidSlNo n).message = "invalid Sl No at row " ++ toString n ∧
    (RowError.invalidClassNo n).message = "invalid Class No at row " ++ toString n ∧
    (∀ e, parseRow (i + 2) row = Except.error e → ¬ row.length < 11 →
      parseRowsFrom i (row :: rest) =
        ((parseRowsFrom (i + 1) rest).1,
          LogLine.parseError (i + 2) e :: (parseRowsFrom (i + 1) rest).2) ∧
      (LogLine.parseError (i + 2) e).message =
        "Error parsing row " ++ toString (i + 2) ++ ": " ++ e.message ++ "\n") := by
  refine ⟨?_, ?_, rfl, rfl, ?_⟩
  · intro h
    unfold parseRow
    rw [h]
  · intro a ha h
    unfold parseRow
    rw [ha, h]
  · intro e he hlen
    refine ⟨?_, rfl⟩
    rw [parseRowsFrom_cons, if_neg hlen, he]

/-- Witness for C8: the row whose serial cell is "x" is rejected with the
error naming field and row, and the two-row workbook containing it parses to
the single record of its good row, with the error line logged first. -/
theorem C8_integer_fields_witness :
    (atoi (badSlNoRow.getD 0 "") = none ∧
      parseRow 2 badSlNoRow = Except.error (RowError.invalidSlNo 2)) ∧
    parseRowsFrom 0 [badSlNoRow, exRow] =
      ([exStud], [LogLine.parseError 2 (RowError.invalidSlNo 2)]) := by
  refine ⟨⟨by decide, (C8_integer_fields 2 0 badSlNoRow [exRow]).1 (by decide)⟩, by decide⟩

/-- The record part of a `parseRow` result does not depend on the row number
passed in: the row number is used only inside error values and diagnostics. -/
theorem parseRow_fst_rowNum (n m : Nat) (row : List String) :
    (parseRow n row).toOption.map (fun sd => sd.1) =
      (parseRow m row).toOption.map (fun sd => sd.1) := by
  unfold parseRow
  cases atoi (row.getD 0 "") with
  | none => rfl
  | some a =>
    cases atoi (row.getD 1 "") with
    | none => rfl
    | some b =>
      simp only
      cases h10 : (parseFloatGo (row.getD 10 "")).2 with
      | false => simp [Except.toOption]
      | true => simp [Except.toOption]

/-- The record list produced by the row loop does not depend on the loop
index (which feeds only diagnostics). -/
theorem parseRowsFrom_fst_index (rows : List (List String)) (i j : Nat) :
    (parseRowsFrom i rows).1 = (parseRowsFrom j rows).1 := by
  induction rows generalizing i j with
  | nil => rfl
  | cons row rest ih =>
    by_cases hlen : row.length < 11
    · rw [parseRowsFrom_cons, parseRowsFrom_cons, if_pos hlen, if_pos hlen]
      exact ih (i + 1) (j + 1)
    · have hok := parseRow_fst_rowNum (i + 2) (j + 2) row
      rw [parseRowsFrom_cons, parseRowsFrom_cons, if_neg hlen, if_neg hlen]
      cases hpi : parseRow (i + 2) row with
      | error e =>
        cases hpj : parseRow (j + 2) row with
        | error e' => exact ih (i + 1) (j + 1)
        | ok sd =>
          rw [hpi, hpj] at hok
          simp [Except.toOption] at hok
      | ok sd =>
        cases hpj : parseRow (j + 2) row with
        | error e' =>
          rw [hpi, hpj] at hok
          simp [Except.toOption] at hok
        | ok sd' =>
          rw [hpi, hpj] at hok
          simp [Except.toOption] at hok
          simp [ih (i + 1) (j + 1), hok]

/-- Claim C9 (corrected): a data row with fewer than 11 cells is skipped
entirely by the `parseExcel` loop — silently: no record and also no
diagnostic, the `continue` at src line 47 prints nothing — the record output
over any workbook equals the output over its rows of length at least 11, and
the header row is dropped without being examined at all. -/
theorem C9_short_rows_skipped (i : Nat) (row : List String) (rest : List (List String))
    (hdr : List String) (rows dataRows : List (List String)) (h : row.length < 11) :
    parseRowsFrom i (row :: rest) = parseRowsFrom (i + 1) rest ∧
    parseExcelRows (hdr :: dataRows) = parseRowsFrom 0 dataRows ∧
    (parseRowsFrom i rows).1 =
      (parseRowsFrom i (rows.filter (fun r => decide (11 ≤ r.length)))).1 := by
  refine ⟨?_, rfl, ?_⟩
  · rw [parseRowsFrom_cons, if_pos h]
  · clear h row rest
    induction rows generalizing i with
    | nil => rfl
    | cons row rest ih =>
      by_cases hlen : row.length < 11
      · have hf : ¬ ((fun r => decide (11 ≤ List.length r)) row = true) := by
          simp
          omega
        rw [@List.filter_cons_of_neg _ (fun r => decide (11 ≤ List.length r)) row rest hf]
        rw [parseRowsFrom_cons, if_pos hlen]
        rw [parseRowsFrom_fst_index rest (i + 1) i]
        exact ih i
      · have hf : ((fun r => decide (11 ≤ List.length r)) row = true) := by
          simp
          omega
        rw [@List.filter_cons_of_pos _ (fun r => decide (11 ≤ List.length r)) row rest hf]
        rw [parseRowsFrom_cons, parseRowsFrom_cons, if_neg hlen, if_neg hlen]
        cases hpi : parseRow (i + 2) row with
        | error e => exact ih (i + 1)
        | ok sd => simp [ih (i + 1)]

/-- Witness for C9: the two-row workbook of a header and a three-cell row. -/
theorem C9_short_rows_skipped_witness :
    shortRow.length < 11 ∧
    parseRowsFrom 0 [shortRow] = parseRowsFrom 1 [] ∧
    parseExcelRows [headerRow, shortRow] = parseRowsFrom 0 [shortRow] :=
  ⟨by decide, (C9_short_rows_skipped 0 shortRow [] headerRow [] [] (by decide)).1,
    (C9_short_rows_skipped 0 shortRow [] headerRow [] [shortRow] (by decide)).2.1⟩

/-- Counterexample for C9 as stated: the specification says a short row is
"logged as a parse anomaly"; the code's `continue` (src lines 46-48) prints
nothing, so the workbook whose only data row is short produces no record and
also no log line at all. -/
theorem C9_short_rows_counterexample :
    (parseExcelRows [headerRow, shortRow]).1 = [] ∧
    (parseExcelRows [headerRow, shortRow]).2 = [] := by
  refine ⟨by decide, by decide⟩

/-- Claim C10 (confirmed): `computeAverages` of the empty record list is the
empty map — no component key is present — and any key present in the result
for any input proves the input nonempty, so each stored average is a sum
divided by a positive count and no degenerate division arises. -/
theorem C10_empty_input :
    computeAverages ([] : List Student) = ([] : GoMap Rat) ∧
    ∀ (students : List Student) (k : String) (v : Rat),
      GoMap.find? (computeAverages students) k = some v → 0 < students.length := by
  refine ⟨rfl, ?_⟩
  intro students k v h
  cases students with
  | nil => simp [computeAverages, sumLoop, GoMap.find?] at h
  | cons s rest => simp

/-- Witness for C10: a singleton list stores an average for "Quiz", and the
theorem turns that into positivity of the record count. -/
theorem C10_empty_input_witness :
    GoMap.find? (computeAverages [exStud]) "Quiz" = some 8 ∧
    0 < ([exStud] : List Student).length :=
  ⟨by decide, C10_empty_input.2 [exStud] "Quiz" 8 (by decide)⟩

/-- One `computeAverages` loop iteration adds the student's score onto every
component's running sum (a key missing before the iteration starts from 0,
Go's zero-value read). -/
theorem addStudent_find? (m : GoMap Rat) (s : Student) (k : String) (hk : k ∈ categories) :
    GoMap.find? (addStudent m s) k = some (GoMap.getD m k 0 + getScoreByCategory s k) := by
  fin_cases hk <;>
    simp [addStudent, getScoreByCategory, GoMap.find?_upsert_self, GoMap.find?_upsert_ne,
      GoMap.getD_upsert_self, GoMap.getD_upsert_ne, GoMap.getD]

/-- Running the summing loop over a nonempty record list yields, at each
component key, the initial reading plus the component's sum over the list. -/
theorem sumLoop_find? (k : String) (hk : k ∈ categories) (students : List Student) :
    ∀ (m : GoMap Rat), students ≠ [] →
      GoMap.find? (sumLoop students m) k =
        some (GoMap.getD m k 0 + ((students.map (fun s => getScoreByCategory s k)).sum)) := by
  induction students with
  | nil => intro m h; exact absurd rfl h
  | cons s rest ih =>
    intro m _
    by_cases hr : rest = []
    · subst hr
      rw [sumLoop, sumLoop]
      rw [addStudent_find? m s k hk]
      simp [GoMap.getD]
    · rw [sumLoop, ih (addStudent m s) hr]
      have h2 : GoMap.getD (addStudent m s) k 0 = GoMap.getD m k 0 + getScoreByCategory s k := by
        simp [GoMap.getD, addStudent_find? m s k hk]
      rw [h2]
      simp [add_assoc]

/-- Lookup in a map whose stored values were all divided by a constant. -/
theorem GoMap.find?_mapDiv (m : GoMap Rat) (c : Rat) (k : String) :
    GoMap.find? (m.map (fun p => (p.1, p.2 / c))) k = (GoMap.find? m k).map (fun v => v / c) :=
  GoMap.find?_mapVal m (fun _ v => v / c) k

/-- Claim C6 (corrected, restricted to nonempty lists): for every nonempty
record list, `computeAverages` stores, at each of the seven component keys,
the arithmetic mean of that field: its sum over all records divided by the
record count. -/
theorem C6_component_means (students : List Student) (h : students ≠ []) (k : String)
    (hk : k ∈ categories) :
    GoMap.find? (computeAverages students) k =
      some (((students.map (fun s => getScoreByCategory s k)).sum) /
        (students.length : Rat)) := by
  unfold computeAverages
  rw [GoMap.find?_mapDiv (sumLoop students []) (students.length : Rat) k]
  rw [sumLoop_find? k hk students [] h]
  simp [GoMap.getD, GoMap.find?]

/-- Witness for C6 at a singleton list and the "Quiz" component. -/
theorem C6_component_means_witness :
    ([exStud] ≠ ([] : List Student)) ∧ "Quiz" ∈ categories ∧
    GoMap.find? (computeAverages [exStud]) "Quiz" =
      some ((([exStud].map (fun s => getScoreByCategory s "Quiz")).sum) /
        (([exStud] : List Student).length : Rat)) :=
  ⟨by decide, by decide, C6_component_means [exStud] (by decide) "Quiz" (by decide)⟩

/-- Counterexample for C6 as stated: the claim quantifies over every record
list, but on the empty list the sum loop never runs, so the result map stores
nothing at all — "Quiz" (like every component) is absent rather than mapped
to a mean. -/
theorem C6_component_means_counterexample :
    GoMap.find? (computeAverages ([] : List Student)) "Quiz" = none := by
  decide

/-- A record counts towards branch `b`: it passes the cohort filter and its
branch code is `b`. -/
def qualForBranch (b : String) (s : Student) : Bool :=
  qualifies s && (branchOf s == b)

/-- Unfolding equation for the branch loop at a cons cell. -/
theorem branchLoop_cons (s : Student) (rest : List Student) (acc : GoMap Rat × GoMap Nat) :
    branchLoop (s :: rest) acc =
      if qualifies s then
        branchLoop rest
          (GoMap.upsert acc.1 (branchOf s) (GoMap.getD acc.1 (branchOf s) 0 + s.Total),
           GoMap.upsert acc.2 (branchOf s) (GoMap.getD acc.2 (branchOf s) 0 + 1))
      else branchLoop rest acc := rfl

/-- Invariant of the branch loop: at any branch key, the accumulated total
(resp. count) equals the initial reading plus the sum of `total` (resp. the
number) of the qualifying records with that branch code; the key exists
afterwards exactly when it existed before or some processed record qualified
for it. -/
theorem branchLoop_find? (b : String) (students : List Student) :
    ∀ (bt : GoMap Rat) (bc : GoMap Nat),
      (GoMap.find? (branchLoop students (bt, bc)).1 b =
        (if students.filter (qualForBranch b) = [] then GoMap.find? bt b
         else some (GoMap.getD bt b 0 +
           ((students.filter (qualForBranch b)).map Student.Total).sum))) ∧
      (GoMap.find? (branchLoop students (bt, bc)).2 b =
        (if students.filter (qualForBranch b) = [] then GoMap.find? bc b
         else some (GoMap.getD bc b 0 + (students.filter (qualForBranch b)).length))) := by
  induction students with
  | nil =>
    intro bt bc
    constructor <;> simp [branchLoop]
  | cons s rest ih =>
    intro bt bc
    rw [branchLoop_cons]
    by_cases hq : qualifies s = true
    · rw [if_pos hq]
      by_cases hb : branchOf s = b
      · have hqf : (qualForBranch b s = true) := by
          simp [qualForBranch, hq, hb]
        rw [@List.filter_cons_of_pos _ (qualForBranch b) s rest hqf]
        subst hb
        have h1 := ih
          (GoMap.upsert bt (branchOf s) (GoMap.getD bt (branchOf s) 0 + s.Total))
          (GoMap.upsert bc (branchOf s) (GoMap.getD bc (branchOf s) 0 + 1))
        refine ⟨?_, ?_⟩
        · rw [h1.1]
          by_cases hrf : rest.filter (qualForBranch (branchOf s)) = []
          · rw [if_pos hrf, if_neg (List.cons_ne_nil s _), hrf]
            simp [GoMap.find?_upsert_self]
          · rw [if_neg hrf, if_neg (List.cons_ne_nil s _), GoMap.getD_upsert_self]
            simp [add_assoc]
        · rw [h1.2]
          by_cases hrf : rest.filter (qualForBranch (branchOf s)) = []
          · rw [if_pos hrf, if_neg (List.cons_ne_nil s _), hrf]
            simp [GoMap.find?_upsert_self]
          · rw [if_neg hrf, if_neg (List.cons_ne_nil s _), GoMap.getD_upsert_self]
            simp only [List.length_cons, Option.some.injEq]
            omega
      · have hqf : ¬ (qualForBranch b s = true) := by
          simp [qualForBranch, hq]
          intro hc
          exact absurd hc hb
        rw [@List.filter_cons_of_neg _ (qualForBranch b) s rest hqf]
        have h1 := ih
          (GoMap.upsert bt (branchOf s) (GoMap.getD bt (branchOf s) 0 + s.Total))
          (GoMap.upsert bc (branchOf s) (GoMap.getD bc (branchOf s) 0 + 1))
        have hbne : b ≠ branchOf s := fun hc => hb hc.symm
        refine ⟨?_, ?_⟩
        · rw [h1.1, GoMap.find?_upsert_ne bt (branchOf s) b _ hbne,
            GoMap.getD_upsert_ne bt (branchOf s) b _ _ hbne]
        · rw [h1.2, GoMap.find?_upsert_ne bc (branchOf s) b _ hbne,
            GoMap.getD_upsert_ne bc (branchOf s) b _ _ hbne]
    · rw [if_neg hq]
      have hqf : ¬ (qualForBranch b s = true) := by
        simp [qualForBranch]
        intro hc
        exact absurd hc hq
      rw [@List.filter_cons_of_neg _ (qualForBranch b) s rest hqf]
      exact ih bt bc

/-- Claim C4 (confirmed): `computeBranchAverages` stores a value at branch
key `b` exactly when some record qualifies for `b` — `campusId` at least 6
characters, year prefix "2024", branch code (characters 4-5) containing "A",
branch code equal to `b` — and that value is the arithmetic mean of `total`
over exactly those qualifying records; records failing any condition
contribute to no branch key. -/
theorem C4_branch_averages (students : List Student) (b : String) :
    GoMap.find? (computeBranchAverages students) b =
      (if students.filter (qualForBranch b) = [] then none
       else some (((students.filter (qualForBranch b)).map Student.Total).sum /
         ((students.filter (qualForBranch b)).length : Rat))) := by
  simp only [computeBranchAverages]
  rw [GoMap.find?_mapVal (branchLoop students ([], [])).1
    (fun key v => v / ((GoMap.getD (branchLoop students ([], [])).2 key 0 : Nat) : Rat)) b]
  have h1 := (branchLoop_find? b students [] []).1
  have h2 := (branchLoop_find? b students [] []).2
  by_cases hf : students.filter (qualForBranch b) = []
  · rw [if_pos hf] at h1
    rw [h1, if_pos hf]
    simp [GoMap.find?]
  · rw [if_neg hf] at h1 h2
    rw [h1, if_neg hf]
    have hc : GoMap.getD (branchLoop students ([], [])).2 b 0 =
        (students.filter (qualForBranch b)).length := by
      rw [GoMap.getD, h2]
      simp [GoMap.getD, GoMap.find?]
    simp only [Option.map_some']
    rw [hc]
    simp [GoMap.getD, GoMap.find?]

/-- The source's `min` agrees with `Nat.min`. -/
theorem minGo_eq_min (a b : Nat) : minGo a b = min a b := by
  unfold minGo
  split <;> omega

/-- The rankings map after any tail of the category loop: a category already
processed is mapped to its ranking computed from the untouched input list;
any other key keeps its previous binding. -/
theorem rankLoop_find? (students : List Student) (c : String) (cs : List String) :
    ∀ (m : GoMap (List Student)),
      GoMap.find? (rankLoop students cs m).1 c =
        if c ∈ cs then some (rankOne students c) else GoMap.find? m c := by
  induction cs with
  | nil =>
    intro m
    rw [if_neg (List.not_mem_nil c)]
    rfl
  | cons c0 rest ih =>
    intro m
    rw [rankLoop, ih]
    by_cases hc : c ∈ rest
    · rw [if_pos hc, if_pos (List.mem_cons_of_mem c0 hc)]
    · by_cases he : c = c0
      · subst he
        rw [if_neg hc, if_pos (List.mem_cons_self c rest), GoMap.find?_upsert_self]
      · rw [if_neg hc, GoMap.find?_upsert_ne m c0 c _ he,
          if_neg (by simp [List.mem_cons, hc, he])]

/-- Claim C5 (confirmed): for every record list and every one of the seven
categories, the rankings map holds a list of exactly `min 3 n` records
(`n` the input length), sorted nonincreasingly in that category's score, and
every record of the input that is not in the list scores no more than every
record in it. -/
theorem C5_top3 (students : List Student) (c : String) (hc : c ∈ categories) :
    ∃ l, GoMap.find? (rankStudents students) c = some l ∧
      l.length = min 3 students.length ∧
      List.Pairwise (rankGE c) l ∧
      ∀ r ∈ students, r ∉ l → ∀ r' ∈ l,
        getScoreByCategory r c ≤ getScoreByCategory r' c := by
  have hfind : GoMap.find? (rankStudents students) c = some (rankOne students c) := by
    rw [rankStudents, rankStudentsSt, rankLoop_find? students c categories [], if_pos hc]
  have hperm : (goSortBy c (goCopy students)).Perm students := by
    have h := List.perm_insertionSort (rankGE c) (goCopy students)
    simpa [goCopy] using h
  have hsorted : List.Pairwise (rankGE c) (goSortBy c (goCopy students)) :=
    List.sorted_insertionSort (rankGE c) (goCopy students)
  refine ⟨rankOne students c, hfind, ?_, ?_, ?_⟩
  · rw [rankOne, List.length_take, hperm.length_eq, minGo_eq_min]
    omega
  · exact List.Pairwise.sublist (List.take_sublist _ _) hsorted
  · intro r hr hrl r' hr'
    have hrs : r ∈ goSortBy c (goCopy students) := hperm.mem_iff.mpr hr
    have hsplit := List.take_append_drop
      (minGo 3 (goSortBy c (goCopy students)).length) (goSortBy c (goCopy students))
    rw [← hsplit] at hrs hsorted
    have hp := (List.pairwise_append.mp hsorted).2.2
    rcases List.mem_append.mp hrs with h1 | h2
    · exact absurd h1 hrl
    · exact hp r' hr' r h2

/-- Example records with totals 10, 20, 20, 5 for the ranking example. -/
def st10 : Student :=
  { SlNo := 1, ClassNo := 1, Emplid := "E010", CampusID := "2024A1001", Quiz := 0, MidSem := 0,
    LabTest := 0, WeeklyLabs := 0, PreCompre := 0, Compre := 10, Total := 10, ComputedSum := 10 }

/-- Second example record, total 20. -/
def st20a : Student :=
  { SlNo := 2, ClassNo := 1, Emplid := "E020", CampusID := "2024A1002", Quiz := 0, MidSem := 0,
    LabTest := 0, WeeklyLabs := 0, PreCompre := 0, Compre := 20, Total := 20, ComputedSum := 20 }

/-- Third example record, total 20 as well. -/
def st20b : Student :=
  { SlNo := 3, ClassNo := 1, Emplid := "E021", CampusID := "2024A1003", Quiz := 0, MidSem := 0,
    LabTest := 0, WeeklyLabs := 0, PreCompre := 0, Compre := 20, Total := 20, ComputedSum := 20 }

/-- Fourth example record, total 5. -/
def st5 : Student :=
  { SlNo := 4, ClassNo := 1, Emplid := "E005", CampusID := "2024A1004", Quiz := 0, MidSem := 0,
    LabTest := 0, WeeklyLabs := 0, PreCompre := 0, Compre := 5, Total := 5, ComputedSum := 5 }

/-- The example list with totals [10, 20, 20, 5]. -/
def exRank : List Student :=
  [st10, st20a, st20b, st5]

/-- Witness for C5 at the example list with totals [10, 20, 20, 5]: the
"Total" ranking exists with the stated shape, and concretely it contains both
records scoring 20 and the record scoring 10, and never the record scoring
5. -/
theorem C5_top3_witness :
    ("Total" ∈ categories ∧
      ∃ l, GoMap.find? (rankStudents exRank) "Total" = some l ∧
        l.length = min 3 exRank.length ∧
        List.Pairwise (rankGE "Total") l ∧
        ∀ r ∈ exRank, r ∉ l → ∀ r' ∈ l,
          getScoreByCategory r "Total" ≤ getScoreByCategory r' "Total") ∧
    st20a ∈ GoMap.getD (rankStudents exRank) "Total" [] ∧
    st20b ∈ GoMap.getD (rankStudents exRank) "Total" [] ∧
    st10 ∈ GoMap.getD (rankStudents exRank) "Total" [] ∧
    st5 ∉ GoMap.getD (rankStudents exRank) "Total" [] :=
  ⟨⟨by decide, C5_top3 exRank "Total" (by decide)⟩, by decide, by decide, by decide, by decide⟩

/-- Claim C7 (confirmed): `rankStudents` leaves the caller's record list
exactly as it was — the loop's writes all go through the freshly copied
slice, so the carried slice contents equal the input when the function
returns — and each category's ranking is a function of the original input
list alone (`rankOne students`), so computing one category's ranking cannot
alter another's. -/
theorem C7_no_mutation (students : List Student) :
    (rankStudentsSt students).2 = students ∧
    ∀ c ∈ categories, GoMap.find? (rankStudents students) c = some (rankOne students c) := by
  constructor
  · have h : ∀ (cs : List String) (m : GoMap (List Student)),
        (rankLoop students cs m).2 = students := by
      intro cs
      induction cs with
      | nil => intro m; rfl
      | cons c0 rest ih => intro m; rw [rankLoop]; exact ih _
    exact h categories []
  · intro c hc
    rw [rankStudents, rankStudentsSt, rankLoop_find? students c categories [], if_pos hc]

/-- Witness for C7 at the example list and the "Quiz" category. -/
theorem C7_no_mutation_witness :
    (rankStudentsSt exRank).2 = exRank ∧
    GoMap.find? (rankStudents exRank) "Quiz" = some (rankOne exRank "Quiz") :=
  ⟨(C7_no_mutation exRank).1, (C7_no_mutation exRank).2 "Quiz" (by decide)⟩

/-- Claim C2 (corrected): running the pipeline twice on the same parsed input
produces reports with the same content per section — the multiset of average
lines, of branch lines and of category blocks is a function of the input alone —
whatever iteration orders the Go runtime picks for the three maps on each
run. -/
theorem C2_report_content (students : List Student) (o1 o1' o2 o2' o3 o3' : List String)
    (h1 : validOrder (computeAverages students) o1)
    (h1' : validOrder (computeAverages students) o1')
    (h2 : validOrder (computeBranchAverages students) o2)
    (h2' : validOrder (computeBranchAverages students) o2')
    (h3 : validOrder (rankStudents students) o3)
    (h3' : validOrder (rankStudents students) o3') :
    (averagesSection students o1).Perm (averagesSection students o1') ∧
    (branchSection students o2).Perm (branchSection students o2') ∧
    (rankSection students o3).Perm (rankSection students o3') :=
  ⟨List.Perm.map _ (List.Perm.trans h1 (List.Perm.symm h1')),
   List.Perm.map _ (List.Perm.trans h2 (List.Perm.symm h2')),
   List.Perm.map _ (List.Perm.trans h3 (List.Perm.symm h3'))⟩

/-- A concrete iteration order for the averages map of the one-record run. -/
def exOrder1 : List String :=
  GoMap.keys (computeAverages [exStud])

/-- A concrete iteration order for the branch map of the one-record run. -/
def exOrder2 : List String :=
  GoMap.keys (computeBranchAverages [exStud])

/-- A concrete iteration order for the rankings map of the one-record run. -/
def exOrder3 : List String :=
  GoMap.keys (rankStudents [exStud])

/-- Counterexample for C2 as stated: byte-identical output is not guaranteed,
because `main` prints by ranging over Go maps, whose iteration order is
unspecified and varies between runs.  For the one-record input, two valid
iteration orders of the averages map yield different report bytes. -/
theorem C2_determinism_counterexample :
    validOrder (computeAverages [exStud]) exOrder1 ∧
    validOrder (computeAverages [exStud]) exOrder1.reverse ∧
    report [exStud] exOrder1 exOrder2 exOrder3 ≠
      report [exStud] exOrder1.reverse exOrder2 exOrder3 := by
  refine ⟨by decide, by decide, by decide⟩

/-- Witness for C2 (amended) at the one-record input and two orders for the
averages map. -/
theorem C2_report_content_witness :
    (validOrder (computeAverages [exStud]) exOrder1 ∧
      validOrder (computeAverages [exStud]) exOrder1.reverse ∧
      validOrder (computeBranchAverages [exStud]) exOrder2 ∧
      validOrder (rankStudents [exStud]) exOrder3) ∧
    ((averagesSection [exStud] exOrder1).Perm (averagesSection [exStud] exOrder1.reverse) ∧
      (branchSection [exStud] exOrder2).Perm (branchSection [exStud] exOrder2) ∧
      (rankSection [exStud] exOrder3).Perm (rankSection [exStud] exOrder3)) :=
  ⟨⟨by decide, by decide, by decide, by decide⟩,
    C2_report_content [exStud] exOrder1 exOrder1.reverse exOrder2 exOrder2 exOrder3 exOrder3
      (by decide) (by decide) (by decide) (by decide) (by decide) (by decide)⟩
